import Mathlib

/-! Rosario C backend output: representation layer.

Shallow embedding of `crates/rosario/output.c`, the C file emitted by the
Rosario compiler backend, and proofs about the encoding it uses:

* the boolean compatibility shim (lines 1-10), a sequence of preprocessor
  directives acting on the macro table of the translation unit;
* the primitive typedefs (lines 29-47), interpreted under a target data model
  that fixes the widths of the C integer types;
* the two tagged structs with their constructors (lines 13-27 and 49-64).
-/

namespace Rosario

/-! ## Booleans and tags -/

/-- Integer value of the token `false` after line 10: the macro body `0`
below C23, the keyword `false` from C23 on. -/
def bool_false : Nat := 0

/-- Integer value of the token `true` after line 10: the macro body `1`
below C23, the keyword `true` from C23 on. -/
def bool_true : Nat := 1

/-- Conversion of an integer to `_Bool`: 0 when the value compares equal to 0,
otherwise 1. The two values of `_Bool` are the two values of `Bool`. -/
def toCBool (n : Nat) : Bool := n != 0

/-- Integer promotion of a `_Bool`, as performed when a `kind` field is
compared with a tag constant. -/
def tagValue (b : Bool) : Nat := if b then 1 else 0

/-- Line 13: `#define CORE_BASIC_TYPES_BOOL_FALSE false`. -/
def CORE_BASIC_TYPES_BOOL_FALSE : Nat := bool_false

/-- Line 14: `#define CORE_BASIC_TYPES_BOOL_TRUE true`. -/
def CORE_BASIC_TYPES_BOOL_TRUE : Nat := bool_true

/-- Lines 16-18: `typedef struct { bool kind; } core_basic_types_Bool;`. -/
structure core_basic_types_Bool where
  kind : Bool
deriving DecidableEq, Repr

/-- Lines 20-23: the initialiser `{ .kind = CORE_BASIC_TYPES_BOOL_FALSE, }`. -/
def New_core_basic_types_Bool_False : core_basic_types_Bool :=
  { kind := toCBool CORE_BASIC_TYPES_BOOL_FALSE }

/-- Lines 24-27: the initialiser `{ .kind = CORE_BASIC_TYPES_BOOL_TRUE, }`. -/
def New_core_basic_types_Bool_True : core_basic_types_Bool :=
  { kind := toCBool CORE_BASIC_TYPES_BOOL_TRUE }

/-- Line 49: `#define C_MAIN_OPTION_INT32_NONE false`. -/
def C_MAIN_OPTION_INT32_NONE : Nat := bool_false

/-- Line 50: `#define C_MAIN_OPTION_INT32_SOME true`. -/
def C_MAIN_OPTION_INT32_SOME : Nat := bool_true

/-- Lines 52-55: `typedef struct { bool kind; core_basic_types_Int32 Some_0; }
c_main_Option_Int32;`. The payload is a `signed long int`; its value is kept
as an unbounded integer, so every value of every target's `long` is covered. -/
structure c_main_Option_Int32 where
  kind : Bool
  Some_0 : Int
deriving DecidableEq, Repr

/-- Lines 57-60: the initialiser `{ .kind = C_MAIN_OPTION_INT32_NONE, }`.
A member the designated initialiser does not name is initialised as an object
of static storage duration is, that is, an arithmetic member gets 0. -/
def New_c_main_Option_Int32_None : c_main_Option_Int32 :=
  { kind := toCBool C_MAIN_OPTION_INT32_NONE, Some_0 := 0 }

/-- Lines 61-64: the initialiser
`{ .kind = C_MAIN_OPTION_INT32_SOME, .Some_0 = v0 }`. -/
def New_c_main_Option_Int32_Some (v0 : Int) : c_main_Option_Int32 :=
  { kind := toCBool C_MAIN_OPTION_INT32_SOME, Some_0 := v0 }

/-- Declaration-order list of the tag constants of `core_basic_types_Bool`
(lines 13-14). -/
def core_basic_types_Bool_tags : List Nat :=
  [CORE_BASIC_TYPES_BOOL_FALSE, CORE_BASIC_TYPES_BOOL_TRUE]

/-- Declaration-order list of the tag constants of `c_main_Option_Int32`
(lines 49-50). -/
def c_main_Option_Int32_tags : List Nat :=
  [C_MAIN_OPTION_INT32_NONE, C_MAIN_OPTION_INT32_SOME]

/-- Tag-gated read of the `Some` payload, `x.kind == C_MAIN_OPTION_INT32_SOME ?
x.Some_0 : nothing`. The source has no reader; this is the read a consumer of
the struct (lines 52-55) performs when it checks the tag first. -/
def readSome (x : c_main_Option_Int32) : Option Int :=
  if tagValue x.kind = C_MAIN_OPTION_INT32_SOME then some x.Some_0 else none

/-- Line 70 of `c_main_Main`:
`const c_main_Option_Int32 enum_test = New_c_main_Option_Int32_Some(36);`. -/
def c_main_Main_enum_test : c_main_Option_Int32 :=
  New_c_main_Option_Int32_Some 36

/-! ## Primitive typedefs (lines 29-47) -/

/-- The C integer types the typedefs of lines 29-47 are built from. -/
inductive CType
  | signedChar
  | signedShort
  | signedLong
  | signedLongLong
  | unsignedChar
  | unsignedShort
  | unsignedLong
  | unsignedLongLong
deriving DecidableEq, Repr

/-- Widths in bits that a target gives to the C integer types. The source
fixes none of them: they are the implementation-defined part of the target. -/
structure DataModel where
  charBits : Nat
  shortBits : Nat
  intBits : Nat
  longBits : Nat
  longLongBits : Nat
deriving DecidableEq, Repr

/-- The data model of 64-bit Linux, BSD and macOS targets: `long` is 64 bits. -/
def LP64 : DataModel :=
  { charBits := 8, shortBits := 16, intBits := 32, longBits := 64, longLongBits := 64 }

/-- The data model of 32-bit targets: `long` is 32 bits. -/
def ILP32 : DataModel :=
  { charBits := 8, shortBits := 16, intBits := 32, longBits := 32, longLongBits := 64 }

/-- The data model of 64-bit Windows: `long` is 32 bits. -/
def LLP64 : DataModel :=
  { charBits := 8, shortBits := 16, intBits := 32, longBits := 32, longLongBits := 64 }

/-- Width of a C integer type under a data model. -/
def CType.bits (m : DataModel) : CType → Nat
  | .signedChar => m.charBits
  | .signedShort => m.shortBits
  | .signedLong => m.longBits
  | .signedLongLong => m.longLongBits
  | .unsignedChar => m.charBits
  | .unsignedShort => m.shortBits
  | .unsignedLong => m.longBits
  | .unsignedLongLong => m.longLongBits

/-- Signedness of a C integer type. -/
def CType.isSigned : CType → Bool
  | .signedChar => true
  | .signedShort => true
  | .signedLong => true
  | .signedLongLong => true
  | .unsignedChar => false
  | .unsignedShort => false
  | .unsignedLong => false
  | .unsignedLongLong => false

/-- Least value of a C integer type (two's complement for the signed ones). -/
def CType.minVal (m : DataModel) (t : CType) : Int :=
  if t.isSigned then -((2 : Int) ^ (t.bits m - 1)) else 0

/-- Greatest value of a C integer type. -/
def CType.maxVal (m : DataModel) (t : CType) : Int :=
  if t.isSigned then (2 : Int) ^ (t.bits m - 1) - 1 else (2 : Int) ^ (t.bits m) - 1

/-- Membership of an integer in the value set of a C integer type. -/
def CType.holds (m : DataModel) (t : CType) (x : Int) : Bool :=
  decide (t.minVal m ≤ x) && decide (x ≤ t.maxVal m)

/-- Conversion of an integer value to a C integer type: a representable value
is unchanged; otherwise an unsigned target reduces modulo `2 ^ bits` and a
signed target wraps (the usual implementation-defined result). -/
def CType.convert (m : DataModel) (t : CType) (x : Int) : Int :=
  if t.holds m x then x
  else if t.isSigned then
    (x + (2 : Int) ^ (t.bits m - 1)) % (2 : Int) ^ (t.bits m) - (2 : Int) ^ (t.bits m - 1)
  else x % (2 : Int) ^ (t.bits m)

/-- The ten typedef names of lines 29-47, in declaration order. -/
inductive TypedefName
  | core_basic_types_Int16
  | core_basic_types_Int32
  | core_basic_types_Int64
  | core_basic_types_Int8
  | core_basic_types_Integer
  | core_basic_types_UInt16
  | core_basic_types_UInt32
  | core_basic_types_UInt64
  | core_basic_types_UInt8
  | core_basic_types_UInteger
deriving DecidableEq, Repr

/-- Right-hand side of a typedef: a C integer type written out, or the name of
an earlier typedef. -/
inductive TypeSpec
  | builtin (t : CType)
  | named (n : TypedefName)
deriving DecidableEq, Repr

/-- The typedef declarations, one per line of the source. -/
def typedefDecl : TypedefName → TypeSpec
  | .core_basic_types_Int16 => .builtin .signedShort         -- line 29
  | .core_basic_types_Int32 => .builtin .signedLong          -- line 31
  | .core_basic_types_Int64 => .builtin .signedLongLong      -- line 33
  | .core_basic_types_Int8 => .builtin .signedChar           -- line 35
  | .core_basic_types_Integer => .named .core_basic_types_Int32    -- line 37
  | .core_basic_types_UInt16 => .builtin .unsignedShort      -- line 39
  | .core_basic_types_UInt32 => .builtin .unsignedLong       -- line 41
  | .core_basic_types_UInt64 => .builtin .unsignedLongLong   -- line 43
  | .core_basic_types_UInt8 => .builtin .unsignedChar        -- line 45
  | .core_basic_types_UInteger => .named .core_basic_types_UInt32  -- line 47

/-- Resolution of a typedef right-hand side to the C type it denotes, following
at most `fuel` names. -/
def resolveSpec : Nat → TypeSpec → Option CType
  | _, .builtin t => some t
  | 0, .named _ => none
  | fuel + 1, .named n => resolveSpec fuel (typedefDecl n)

/-- The C type a typedef name denotes. A typedef introduces a synonym, so this
is the type the compiler uses wherever the name is written. Ten names bound
the length of any chain of synonyms. -/
def typeOf (n : TypedefName) : Option CType :=
  resolveSpec 10 (typedefDecl n)

/-- Width in bits of a typedef name on a target. -/
def bitsOf (m : DataModel) (n : TypedefName) : Option Nat :=
  (typeOf n).map (CType.bits m)

/-- Signedness of a typedef name. -/
def signedOf (n : TypedefName) : Option Bool :=
  (typeOf n).map CType.isSigned

/-- Membership of an integer in the value set of a typedef name on a target. -/
def holdsOf (m : DataModel) (n : TypedefName) (x : Int) : Bool :=
  match typeOf n with
  | some t => t.holds m x
  | none => false

/-- Conversion of an integer value to the type a typedef name denotes. -/
def convertTo (m : DataModel) (n : TypedefName) (x : Int) : Option Int :=
  (typeOf n).map fun t => t.convert m x

/-- Width in bits that the name of a fixed-width typedef states; the two
language-default names `Integer` and `UInteger` state none. -/
def statedBits : TypedefName → Option Nat
  | .core_basic_types_Int16 => some 16
  | .core_basic_types_Int32 => some 32
  | .core_basic_types_Int64 => some 64
  | .core_basic_types_Int8 => some 8
  | .core_basic_types_Integer => none
  | .core_basic_types_UInt16 => some 16
  | .core_basic_types_UInt32 => some 32
  | .core_basic_types_UInt64 => some 64
  | .core_basic_types_UInt8 => some 8
  | .core_basic_types_UInteger => none

/-- Signedness that the name of a typedef states: the `U` names are unsigned. -/
def statedSigned : TypedefName → Bool
  | .core_basic_types_Int16 => true
  | .core_basic_types_Int32 => true
  | .core_basic_types_Int64 => true
  | .core_basic_types_Int8 => true
  | .core_basic_types_Integer => true
  | .core_basic_types_UInt16 => false
  | .core_basic_types_UInt32 => false
  | .core_basic_types_UInt64 => false
  | .core_basic_types_UInt8 => false
  | .core_basic_types_UInteger => false

/-! ## Compatibility shim (lines 1-10) -/

/-- Macro table of a translation unit: macro name and replacement list, most
recent definition first. -/
abbrev MacroTable := List (String × String)

/-- The test `defined NAME`. -/
def isDefined (name : String) (t : MacroTable) : Bool :=
  (t.lookup name).isSome

/-- The directive `#define NAME BODY`. Defining an undefined name adds it;
repeating a definition with the same replacement list changes nothing; a
different replacement list for a defined name is a constraint violation. -/
def define (name body : String) (t : MacroTable) : Except String MacroTable :=
  match t.lookup name with
  | none => .ok ((name, body) :: t)
  | some old => if old = body then .ok t else .error name

/-- A run of `#define` directives, in order. -/
def runDefines : List (String × String) → MacroTable → Except String MacroTable
  | [], t => .ok t
  | d :: ds, t =>
    match define d.1 d.2 t with
    | .ok t1 => runDefines ds t1
    | .error e => .error e

/-- Value of `__STDC_VERSION__` inside `#if`: the predefined value, or 0 when
the implementation does not predefine the macro (C90). -/
def stdcValue (stdc : Option Nat) : Nat := stdc.getD 0

/-- The directives of lines 1-10 that conditional inclusion keeps:
nothing when `ROSARIO_BOOLEANS_DEFINED` is defined (line 1); otherwise line 2,
lines 4-6 when `__STDC_VERSION__ < 202311l` (line 3), and line 9. -/
def shimActive (stdc : Option Nat) (t : MacroTable) : List (String × String) :=
  if isDefined "ROSARIO_BOOLEANS_DEFINED" t then []
  else
    [("ROSARIO_BOOLEANS_DEFINED", "")]
      ++ (if stdcValue stdc < 202311 then
            [("bool", "_Bool"), ("true", "1"), ("false", "0")]
          else [])
      ++ [("__bool_true_false_are_defined", "1")]

/-- Lines 1-10 applied to the macro table of a unit. -/
def shim (stdc : Option Nat) (t : MacroTable) : Except String MacroTable :=
  runDefines (shimActive stdc t) t

/-- A run of `#define` directives meets no conflicting definition in the
table: every name it defines is undefined or already has the same replacement
list. -/
def conflictFree (ds : List (String × String)) (t : MacroTable) : Bool :=
  ds.all fun d =>
    match t.lookup d.1 with
    | none => true
    | some old => decide (old = d.2)

/-- The dialects of ISO C the file can be handed to. -/
inductive Dialect
  | C90
  | C95
  | C99
  | C11
  | C17
  | C23
deriving DecidableEq, Repr

/-- The value a dialect predefines for `__STDC_VERSION__`: none in C90,
`199409L` with Amendment 1, then `199901L`, `201112L`, `201710L`, `202311L`. -/
def Dialect.stdcVersion : Dialect → Option Nat
  | .C90 => none
  | .C95 => some 199409
  | .C99 => some 199901
  | .C11 => some 201112
  | .C17 => some 201710
  | .C23 => some 202311

/-- The dialects whose built-in types include the two-valued `_Bool`: it is a
keyword from C99 on, and an undeclared identifier before. -/
def Dialect.hasUnderscoreBool : Dialect → Bool
  | .C90 => false
  | .C95 => false
  | .C99 => true
  | .C11 => true
  | .C17 => true
  | .C23 => true

/-- The dialects that supply the boolean natively, `bool`, `true` and `false`
being keywords of the language: C23 only. -/
def Dialect.hasNativeBool : Dialect → Bool
  | .C90 => false
  | .C95 => false
  | .C99 => false
  | .C11 => false
  | .C17 => false
  | .C23 => true

/-- Value of a replacement list that is the integer constant `1` or `0`; any
other replacement list is not taken for a boolean constant. -/
def macroConstant (body : String) : Option Nat :=
  if body = "1" then some 1 else if body = "0" then some 0 else none

/-- Whether the token `bool` names the two-valued boolean type once the macros
of the table are replaced: as a macro, when its replacement list is `_Bool`,
`_Bool` is not itself a macro and the dialect has the type `_Bool`; as a plain
identifier, when the dialect has the keyword `bool`. -/
def boolIsBooleanType (d : Dialect) (t : MacroTable) : Bool :=
  match t.lookup "bool" with
  | some body => body == "_Bool" && (t.lookup "_Bool").isNone && d.hasUnderscoreBool
  | none => d.hasNativeBool

/-- Value of the token `true` once the macros of the table are replaced: the
constant of its replacement list as a macro; as a plain identifier the value of
the keyword `true`, when the dialect has it. -/
def trueValue (d : Dialect) (t : MacroTable) : Option Nat :=
  match t.lookup "true" with
  | some body => macroConstant body
  | none => if d.hasNativeBool then some bool_true else none

/-- Value of the token `false` once the macros of the table are replaced: the
constant of its replacement list as a macro; as a plain identifier the value of
the keyword `false`, when the dialect has it. -/
def falseValue (d : Dialect) (t : MacroTable) : Option Nat :=
  match t.lookup "false" with
  | some body => macroConstant body
  | none => if d.hasNativeBool then some bool_false else none

/-- A boolean with `false = 0` and `true = 1` is in scope: `bool` names the
two-valued type, `true` is 1 and `false` is 0. -/
def boolInScope (d : Dialect) (t : MacroTable) : Bool :=
  boolIsBooleanType d t && decide (trueValue d t = some 1) &&
    decide (falseValue d t = some 0)

/-! ## Brace initialisers (lines 58 and 62) -/

/-- One designator of a brace initialiser of `c_main_Option_Int32`:
`.kind = v` or `.Some_0 = v`. -/
inductive Designator
  | kind (v : Nat)
  | Some_0 (v : Int)
deriving DecidableEq, Repr

/-- The `c_main_Option_Int32` object whose members all have the value given to
objects of static storage duration: 0 for each arithmetic member. A brace
initialiser gives this value to every member it does not name. -/
def c_main_Option_Int32_zero : c_main_Option_Int32 :=
  { kind := toCBool 0, Some_0 := 0 }

/-- One designator applied to an object: the named member gets the value,
converted to the member's type; the other member is kept. -/
def applyDesignator (x : c_main_Option_Int32) : Designator → c_main_Option_Int32
  | .kind v => { x with kind := toCBool v }
  | .Some_0 v => { x with Some_0 := v }

/-- A brace initialiser of `c_main_Option_Int32`: the designators, in order,
on top of the zero-initialised object. -/
def braceInit (ds : List Designator) : c_main_Option_Int32 :=
  ds.foldl applyDesignator c_main_Option_Int32_zero

/-- Line 58: `{ .kind = C_MAIN_OPTION_INT32_NONE,  }`. -/
def New_c_main_Option_Int32_None_init : List Designator :=
  [.kind C_MAIN_OPTION_INT32_NONE]

/-- Line 62: `{ .kind = C_MAIN_OPTION_INT32_SOME, .Some_0 = v0 }`. -/
def New_c_main_Option_Int32_Some_init (v0 : Int) : List Designator :=
  [.kind C_MAIN_OPTION_INT32_SOME, .Some_0 v0]

/-! ## The program (lines 66-78) -/

/-- Addition of two operands of a typedef'd signed type no narrower than
`int`: the sum when the type can represent it; otherwise the addition
overflows, which is undefined behaviour, and there is no result. -/
def addIn (m : DataModel) (n : TypedefName) (x y : Int) : Option Int :=
  if holdsOf m n (x + y) then some (x + y) else none

/-- The call `printf("%li\n", v)` on a standard output that already holds
`out`: the decimal digits of `v`, with a minus sign when negative, and a
newline are appended. -/
def printf_li_newline (out : String) (v : Int) : String :=
  out ++ toString v ++ "\n"

/-- The four locals of `c_main_Main` (lines 67-70). -/
structure c_main_Main_locals where
  a : Int
  b : Int
  c : Int
  enum_test : c_main_Option_Int32
deriving DecidableEq, Repr

/-- Lines 66-74, `c_main_Main`, on a target `m` and a standard output that
holds `out`: the locals it binds and the standard output it leaves, or nothing
when the addition of line 69 overflows. -/
def c_main_Main (m : DataModel) (out : String) : Option (c_main_Main_locals × String) := do
  let a ← convertTo m .core_basic_types_Int32 2          -- line 67
  let b ← convertTo m .core_basic_types_Int32 2          -- line 68
  let c ← addIn m .core_basic_types_Int32 a b            -- line 69
  let v0 ← convertTo m .core_basic_types_Int32 36        -- line 70, the argument
  let enum_test := New_c_main_Option_Int32_Some v0       -- line 70
  pure ({ a := a, b := b, c := c, enum_test := enum_test },
    printf_li_newline out c)                             -- line 72

/-- Lines 75-78, `main`: the standard output it leaves and the value it
returns. -/
def main (m : DataModel) (out : String) : Option (String × Int) := do
  let r ← c_main_Main m out                              -- line 76
  pure (r.2, 0)                                          -- line 77

/-! ## Constructors and tags -/

/-- C1: for each of the four constructors, the tag field `kind` of the value
it returns, read back as an integer, is the tag constant of that variant; for
`Some` this holds whatever the payload is. -/
theorem constructor_sets_own_tag :
    tagValue New_core_basic_types_Bool_False.kind = CORE_BASIC_TYPES_BOOL_FALSE ∧
    tagValue New_core_basic_types_Bool_True.kind = CORE_BASIC_TYPES_BOOL_TRUE ∧
    tagValue New_c_main_Option_Int32_None.kind = C_MAIN_OPTION_INT32_NONE ∧
    ∀ v : Int, tagValue (New_c_main_Option_Int32_Some v).kind = C_MAIN_OPTION_INT32_SOME := by
  refine ⟨rfl, rfl, rfl, ?_⟩
  intro v
  rfl

/-- C2: `New_c_main_Option_Int32_Some v` carries the `Some` tag, which is 1,
and the payload field `Some_0` holds `v`; the value bound to `enum_test` in
`c_main_Main` has tag 1 and payload 36. -/
theorem some_constructor_fidelity :
    (∀ v : Int,
      tagValue (New_c_main_Option_Int32_Some v).kind = C_MAIN_OPTION_INT32_SOME ∧
      tagValue (New_c_main_Option_Int32_Some v).kind = 1 ∧
      (New_c_main_Option_Int32_Some v).Some_0 = v) ∧
    tagValue c_main_Main_enum_test.kind = 1 ∧
    c_main_Main_enum_test.Some_0 = 36 := by
  refine ⟨fun v => ⟨rfl, rfl, rfl⟩, rfl, rfl⟩

/-- C3: in declaration order the tags of `c_main_Option_Int32` are 0 (`None`)
and 1 (`Some`), those of `core_basic_types_Bool` are 0 (`False`) and 1
(`True`); each tag list is `[0, 1]`, so it has no repetition and its members are
exactly the numbers below 2, and the option type uses the very constants of the
boolean encoding. -/
theorem tags_dense_zero_based :
    C_MAIN_OPTION_INT32_NONE = 0 ∧ C_MAIN_OPTION_INT32_SOME = 1 ∧
    CORE_BASIC_TYPES_BOOL_FALSE = 0 ∧ CORE_BASIC_TYPES_BOOL_TRUE = 1 ∧
    c_main_Option_Int32_tags = List.range 2 ∧
    core_basic_types_Bool_tags = List.range 2 ∧
    c_main_Option_Int32_tags.Nodup ∧ core_basic_types_Bool_tags.Nodup ∧
    (∀ n : Nat, n ∈ c_main_Option_Int32_tags ↔ n < 2) ∧
    (∀ n : Nat, n ∈ core_basic_types_Bool_tags ↔ n < 2) ∧
    C_MAIN_OPTION_INT32_NONE = CORE_BASIC_TYPES_BOOL_FALSE ∧
    C_MAIN_OPTION_INT32_SOME = CORE_BASIC_TYPES_BOOL_TRUE ∧
    C_MAIN_OPTION_INT32_NONE = bool_false ∧
    C_MAIN_OPTION_INT32_SOME = bool_true := by
  have hO : c_main_Option_Int32_tags = List.range 2 := by decide
  have hB : core_basic_types_Bool_tags = List.range 2 := by decide
  refine ⟨rfl, rfl, rfl, rfl, hO, hB, by decide, by decide, ?_, ?_, rfl, rfl, rfl, rfl⟩
  · intro n
    rw [hO, List.mem_range]
  · intro n
    rw [hB, List.mem_range]

/-- C5: the tag-gated read of the `Some` payload returns nothing on the value
built by `New_c_main_Option_Int32_None` and exactly `v` on the value built by
`New_c_main_Option_Int32_Some v`; whenever the read returns a payload, the tag
of the value is the `Some` tag and the value is the one `Some` builds from that
payload. -/
theorem tag_gated_read_isolated :
    readSome New_c_main_Option_Int32_None = none ∧
    (∀ v : Int, readSome (New_c_main_Option_Int32_Some v) = some v) ∧
    (∀ (x : c_main_Option_Int32) (w : Int), readSome x = some w →
      tagValue x.kind = C_MAIN_OPTION_INT32_SOME ∧ x = New_c_main_Option_Int32_Some w) := by
  refine ⟨rfl, fun v => rfl, ?_⟩
  intro x w h
  obtain ⟨k, p⟩ := x
  cases k with
  | false => simp [readSome, tagValue, C_MAIN_OPTION_INT32_SOME, bool_true] at h
  | true =>
    simp [readSome, tagValue, C_MAIN_OPTION_INT32_SOME, bool_true] at h
    subst h
    exact ⟨rfl, rfl⟩

/-- The gated read applied to `Some 36`: it returns 36, and the value read from
carries the `Some` tag. -/
theorem tag_gated_read_isolated_witness :
    readSome (New_c_main_Option_Int32_Some 36) = some 36 ∧
    tagValue (New_c_main_Option_Int32_Some 36).kind = C_MAIN_OPTION_INT32_SOME ∧
    New_c_main_Option_Int32_Some 36 = New_c_main_Option_Int32_Some 36 :=
  ⟨rfl, tag_gated_read_isolated.2.2 (New_c_main_Option_Int32_Some 36) 36 rfl⟩

/-- C8: the two constructors of `core_basic_types_Bool` build different values,
and every value of the struct is one of the two. -/
theorem bool_exactly_two_constructors :
    New_core_basic_types_Bool_False ≠ New_core_basic_types_Bool_True ∧
    ∀ b : core_basic_types_Bool,
      b = New_core_basic_types_Bool_False ∨ b = New_core_basic_types_Bool_True := by
  refine ⟨by decide, ?_⟩
  intro b
  obtain ⟨k⟩ := b
  cases k with
  | false => exact Or.inl rfl
  | true => exact Or.inr rfl

/-- C10: `New_c_main_Option_Int32_None` differs from every
`New_c_main_Option_Int32_Some v`, already in the tag, and
`New_c_main_Option_Int32_Some` is injective. -/
theorem option_constructors_distinguishable :
    (∀ v : Int,
      New_c_main_Option_Int32_None ≠ New_c_main_Option_Int32_Some v ∧
      tagValue New_c_main_Option_Int32_None.kind ≠
        tagValue (New_c_main_Option_Int32_Some v).kind) ∧
    (∀ v1 v2 : Int,
      New_c_main_Option_Int32_Some v1 = New_c_main_Option_Int32_Some v2 → v1 = v2) := by
  constructor
  · intro v
    constructor
    · intro h
      have hk := congrArg c_main_Option_Int32.kind h
      simp [New_c_main_Option_Int32_None, New_c_main_Option_Int32_Some, toCBool,
        C_MAIN_OPTION_INT32_NONE, C_MAIN_OPTION_INT32_SOME, bool_false, bool_true] at hk
    · show (0 : Nat) ≠ 1
      decide
  · intro v1 v2 h
    exact congrArg c_main_Option_Int32.Some_0 h

/-- Injectivity applied to two builds of `Some 36`, and `None` against
`Some 0`, which shares its payload field and differs in the tag only. -/
theorem option_constructors_distinguishable_witness :
    New_c_main_Option_Int32_None ≠ New_c_main_Option_Int32_Some 0 ∧
    (New_c_main_Option_Int32_Some 36 = New_c_main_Option_Int32_Some 36 ∧ (36 : Int) = 36) :=
  ⟨(option_constructors_distinguishable.1 0).1,
    rfl, option_constructors_distinguishable.2 36 36 rfl⟩

/-! ## Primitive typedefs -/

/-- Every typedef name resolves to a C integer type whose signedness is the
one its name states, on every target. -/
theorem signedness_as_named (n : TypedefName) :
    signedOf n = some (statedSigned n) := by
  cases n <;> rfl

/-- On the targets whose `long` is 32 bits (ILP32, LLP64) every fixed-width
typedef has the width its name states. -/
theorem widths_as_named_on_long32 (n : TypedefName) (w : Nat)
    (h : statedBits n = some w) :
    bitsOf ILP32 n = some w ∧ bitsOf LLP64 n = some w := by
  cases n <;> simp [statedBits] at h <;> subst h <;> exact ⟨rfl, rfl⟩

/-- C4: on an LP64 target `core_basic_types_Int32`, declared `signed long int`,
is 64 bits wide, not the 32 its name states: `2 ^ 31` and `-(2 ^ 31) - 1` are
among its values. Likewise `core_basic_types_UInt32`, declared
`unsigned long int`, is 64 bits wide and `2 ^ 32` is among its values. -/
theorem int32_is_64_bits_on_LP64 :
    typeOf .core_basic_types_Int32 = some .signedLong ∧
    bitsOf LP64 .core_basic_types_Int32 = some 64 ∧
    bitsOf LP64 .core_basic_types_Int32 ≠ statedBits .core_basic_types_Int32 ∧
    holdsOf LP64 .core_basic_types_Int32 (2 ^ 31) = true ∧
    holdsOf LP64 .core_basic_types_Int32 (-(2 ^ 31) - 1) = true ∧
    typeOf .core_basic_types_UInt32 = some .unsignedLong ∧
    bitsOf LP64 .core_basic_types_UInt32 = some 64 ∧
    bitsOf LP64 .core_basic_types_UInt32 ≠ statedBits .core_basic_types_UInt32 ∧
    holdsOf LP64 .core_basic_types_UInt32 (2 ^ 32) = true := by
  decide

/-- C9: `core_basic_types_Integer` and `core_basic_types_UInteger` are names of
their own in the typedef table, different from `core_basic_types_Int32` and
`core_basic_types_UInt32`, and each is declared by the name of its base type (an
alias), not by writing the C type out again (a re-definition). Alias and base
share the representation: on every target they have the same C type, width,
signedness and value set, and converting a value of either to the other leaves
it unchanged. -/
theorem alias_shares_representation (m : DataModel) :
    typedefDecl .core_basic_types_Integer = .named .core_basic_types_Int32 ∧
    typedefDecl .core_basic_types_UInteger = .named .core_basic_types_UInt32 ∧
    TypedefName.core_basic_types_Integer ≠ TypedefName.core_basic_types_Int32 ∧
    TypedefName.core_basic_types_UInteger ≠ TypedefName.core_basic_types_UInt32 ∧
    typeOf .core_basic_types_Integer = typeOf .core_basic_types_Int32 ∧
    typeOf .core_basic_types_UInteger = typeOf .core_basic_types_UInt32 ∧
    bitsOf m .core_basic_types_Integer = bitsOf m .core_basic_types_Int32 ∧
    bitsOf m .core_basic_types_UInteger = bitsOf m .core_basic_types_UInt32 ∧
    signedOf .core_basic_types_Integer = signedOf .core_basic_types_Int32 ∧
    signedOf .core_basic_types_UInteger = signedOf .core_basic_types_UInt32 ∧
    (∀ x : Int,
      holdsOf m .core_basic_types_Integer x = holdsOf m .core_basic_types_Int32 x) ∧
    (∀ x : Int,
      holdsOf m .core_basic_types_UInteger x = holdsOf m .core_basic_types_UInt32 x) ∧
    (∀ x : Int, holdsOf m .core_basic_types_Int32 x = true →
      convertTo m .core_basic_types_Integer x = some x) ∧
    (∀ x : Int, holdsOf m .core_basic_types_Integer x = true →
      convertTo m .core_basic_types_Int32 x = some x) ∧
    (∀ x : Int, holdsOf m .core_basic_types_UInt32 x = true →
      convertTo m .core_basic_types_UInteger x = some x) ∧
    (∀ x : Int, holdsOf m .core_basic_types_UInteger x = true →
      convertTo m .core_basic_types_UInt32 x = some x) ∧
    typedefDecl .core_basic_types_Integer ≠ typedefDecl .core_basic_types_Int32 ∧
    typedefDecl .core_basic_types_UInteger ≠ typedefDecl .core_basic_types_UInt32 ∧
    (∀ t : CType, typedefDecl .core_basic_types_Integer ≠ .builtin t) ∧
    (∀ t : CType, typedefDecl .core_basic_types_UInteger ≠ .builtin t) := by
  have hI : typeOf .core_basic_types_Integer = some .signedLong := rfl
  have hB : typeOf .core_basic_types_Int32 = some .signedLong := rfl
  have hU : typeOf .core_basic_types_UInteger = some .unsignedLong := rfl
  have hV : typeOf .core_basic_types_UInt32 = some .unsignedLong := rfl
  have conv : ∀ (t : CType) (x : Int), t.holds m x = true → t.convert m x = x := by
    intro t x hx
    simp [CType.convert, hx]
  refine ⟨rfl, rfl, by decide, by decide, rfl, rfl, rfl, rfl, rfl, rfl,
    fun x => rfl, fun x => rfl, ?_, ?_, ?_, ?_, by decide, by decide,
    fun t h => (by cases h), fun t h => (by cases h)⟩
  · intro x hx
    simp only [holdsOf, hB] at hx
    simp [convertTo, hI, conv _ x hx]
  · intro x hx
    simp only [holdsOf, hI] at hx
    simp [convertTo, hB, conv _ x hx]
  · intro x hx
    simp only [holdsOf, hV] at hx
    simp [convertTo, hU, conv _ x hx]
  · intro x hx
    simp only [holdsOf, hU] at hx
    simp [convertTo, hV, conv _ x hx]

/-- The alias theorem on an LP64 target: the value `2 ^ 40`, which fits the
64-bit `long` there, passes unchanged from `core_basic_types_Int32` to
`core_basic_types_Integer`. -/
theorem alias_shares_representation_witness :
    holdsOf LP64 .core_basic_types_Int32 (2 ^ 40) = true ∧
    convertTo LP64 .core_basic_types_Integer (2 ^ 40) = some (2 ^ 40) :=
  ⟨by decide, (alias_shares_representation LP64).2.2.2.2.2.2.2.2.2.2.2.2.1 (2 ^ 40) (by decide)⟩

/-! ## Compatibility shim -/

/-- A successful `#define` keeps every binding the table already had. -/
theorem define_keeps {n b : String} {t t' : MacroTable} (h : define n b t = .ok t')
    {k v : String} (hk : t.lookup k = some v) : t'.lookup k = some v := by
  unfold define at h
  cases hl : t.lookup n with
  | none =>
    rw [hl] at h
    cases h
    have hne : (k == n) = false := by
      cases hkn : (k == n) with
      | false => rfl
      | true =>
        have : k = n := by simpa using hkn
        subst this
        rw [hl] at hk
        cases hk
    simp [List.lookup_cons, hne, hk]
  | some old =>
    rw [hl] at h
    by_cases ho : old = b
    · simp only [ho, if_true] at h
      cases h
      exact hk
    · simp only [ho, if_false] at h
      cases h

/-- A successful `#define` binds its name to its replacement list. -/
theorem define_binds {n b : String} {t t' : MacroTable} (h : define n b t = .ok t') :
    t'.lookup n = some b := by
  unfold define at h
  cases hl : t.lookup n with
  | none =>
    rw [hl] at h
    cases h
    simp
  | some old =>
    rw [hl] at h
    by_cases ho : old = b
    · simp only [ho, if_true] at h
      cases h
      rw [hl, ho]
    · simp only [ho, if_false] at h
      cases h

/-- A successful `#define` leaves the other names as they were. -/
theorem define_other {n b : String} {t t' : MacroTable} (h : define n b t = .ok t')
    {k : String} (hk : k ≠ n) : t'.lookup k = t.lookup k := by
  unfold define at h
  cases hl : t.lookup n with
  | none =>
    rw [hl] at h
    cases h
    have hne : (k == n) = false := by simpa using hk
    simp [List.lookup_cons, hne]
  | some old =>
    rw [hl] at h
    by_cases ho : old = b
    · simp only [ho, if_true] at h
      cases h
      rfl
    · simp only [ho, if_false] at h
      cases h

/-- A successful `#define` adds no second entry for a name. -/
theorem define_nodup {n b : String} {t t' : MacroTable} (h : define n b t = .ok t')
    (hn : (t.map Prod.fst).Nodup) : (t'.map Prod.fst).Nodup := by
  unfold define at h
  cases hl : t.lookup n with
  | none =>
    rw [hl] at h
    cases h
    rw [List.map_cons, List.nodup_cons]
    refine ⟨?_, hn⟩
    intro hmem
    obtain ⟨p, hp, hpn⟩ := List.mem_map.1 hmem
    have := (List.lookup_eq_none_iff.1 hl) p hp
    simp [hpn] at this
  | some old =>
    rw [hl] at h
    by_cases ho : old = b
    · simp only [ho, if_true] at h
      cases h
      exact hn
    · simp only [ho, if_false] at h
      cases h

/-- A name that is bound in the table is among the names of its entries. -/
theorem mem_names_of_lookup {t : MacroTable} {k v : String} (h : t.lookup k = some v) :
    k ∈ t.map Prod.fst := by
  by_contra hnot
  have hnone : t.lookup k = none := by
    rw [List.lookup_eq_none_iff]
    intro p hp
    have hne : k ≠ p.1 := fun heq => hnot (heq ▸ List.mem_map_of_mem Prod.fst hp)
    simpa using hne
  rw [hnone] at h
  cases h

/-- One step of a successful run of directives. -/
theorem runDefines_cons_ok {d : String × String} {ds : List (String × String)}
    {t t' : MacroTable} (h : runDefines (d :: ds) t = .ok t') :
    ∃ t1, define d.1 d.2 t = .ok t1 ∧ runDefines ds t1 = .ok t' := by
  unfold runDefines at h
  cases hd : define d.1 d.2 t with
  | ok t1 =>
    rw [hd] at h
    exact ⟨t1, rfl, h⟩
  | error e =>
    rw [hd] at h
    cases h

/-- A successful run of directives keeps every binding the table already had. -/
theorem runDefines_keeps {ds : List (String × String)} {t t' : MacroTable}
    (h : runDefines ds t = .ok t') {k v : String} (hk : t.lookup k = some v) :
    t'.lookup k = some v := by
  induction ds generalizing t with
  | nil =>
    simp only [runDefines] at h
    cases h
    exact hk
  | cons d ds ih =>
    obtain ⟨t1, h1, h2⟩ := runDefines_cons_ok h
    exact ih h2 (define_keeps h1 hk)

/-- After a successful run every directive of the run is in force. -/
theorem runDefines_binds {ds : List (String × String)} {t t' : MacroTable}
    (h : runDefines ds t = .ok t') {d : String × String} (hd : d ∈ ds) :
    t'.lookup d.1 = some d.2 := by
  induction ds generalizing t with
  | nil => cases hd
  | cons e ds ih =>
    obtain ⟨t1, h1, h2⟩ := runDefines_cons_ok h
    rcases List.mem_cons.1 hd with rfl | hmem
    · exact runDefines_keeps h2 (define_binds h1)
    · exact ih h2 hmem

/-- A successful run leaves alone the names none of its directives defines. -/
theorem runDefines_other {ds : List (String × String)} {t t' : MacroTable}
    (h : runDefines ds t = .ok t') {k : String} (hk : ∀ d ∈ ds, k ≠ d.1) :
    t'.lookup k = t.lookup k := by
  induction ds generalizing t with
  | nil =>
    simp only [runDefines] at h
    cases h
    rfl
  | cons e ds ih =>
    obtain ⟨t1, h1, h2⟩ := runDefines_cons_ok h
    rw [ih h2 (fun d hd => hk d (List.mem_cons_of_mem _ hd)),
      define_other h1 (hk e (List.mem_cons_self _ _))]

/-- A successful run adds no second entry for a name. -/
theorem runDefines_nodup {ds : List (String × String)} {t t' : MacroTable}
    (h : runDefines ds t = .ok t') (hn : (t.map Prod.fst).Nodup) :
    (t'.map Prod.fst).Nodup := by
  induction ds generalizing t with
  | nil =>
    simp only [runDefines] at h
    cases h
    exact hn
  | cons e ds ih =>
    obtain ⟨t1, h1, h2⟩ := runDefines_cons_ok h
    exact ih h2 (define_nodup h1 hn)

/-- A run of directives with pairwise different names that meets no
conflicting definition succeeds. -/
theorem runDefines_ok_of_conflictFree {ds : List (String × String)} {t : MacroTable}
    (hnd : (ds.map Prod.fst).Nodup) (hc : conflictFree ds t = true) :
    ∃ t', runDefines ds t = .ok t' := by
  induction ds generalizing t with
  | nil => exact ⟨t, rfl⟩
  | cons d ds ih =>
    rw [List.map_cons, List.nodup_cons] at hnd
    obtain ⟨hd, hnd⟩ := hnd
    simp only [conflictFree, List.all_cons, Bool.and_eq_true] at hc
    obtain ⟨hc1, hc2⟩ := hc
    have step : ∀ t1, define d.1 d.2 t = .ok t1 → ∃ t', runDefines (d :: ds) t = .ok t' := by
      intro t1 h1
      have hfree : conflictFree ds t1 = true := by
        simp only [conflictFree, List.all_eq_true]
        intro e he
        have hne : e.1 ≠ d.1 := by
          intro heq
          exact hd (heq ▸ List.mem_map_of_mem Prod.fst he)
        rw [define_other h1 hne]
        exact (List.all_eq_true.1 hc2) e he
      obtain ⟨t', ht'⟩ := ih hnd hfree
      refine ⟨t', ?_⟩
      simp only [runDefines, h1, ht']
    cases hl : t.lookup d.1 with
    | none => exact step (d :: t) (by simp [define, hl])
    | some old =>
      rw [hl] at hc1
      have ho : old = d.2 := by simpa using hc1
      exact step t (by simp [define, hl, ho])

/-- Once `ROSARIO_BOOLEANS_DEFINED` is defined, conditional inclusion keeps
none of the shim. -/
theorem shimActive_of_guard (stdc : Option Nat) {t : MacroTable}
    (h : isDefined "ROSARIO_BOOLEANS_DEFINED" t = true) : shimActive stdc t = [] := by
  simp [shimActive, h]

/-- A successful application of the shim leaves `ROSARIO_BOOLEANS_DEFINED`
defined. -/
theorem shim_sets_guard {stdc : Option Nat} {t t' : MacroTable}
    (h : shim stdc t = .ok t') : isDefined "ROSARIO_BOOLEANS_DEFINED" t' = true := by
  unfold shim at h
  cases hg : isDefined "ROSARIO_BOOLEANS_DEFINED" t with
  | true =>
    rw [shimActive_of_guard stdc hg] at h
    simp only [runDefines] at h
    cases h
    exact hg
  | false =>
    have hmem : (("ROSARIO_BOOLEANS_DEFINED", "") : String × String) ∈ shimActive stdc t := by
      simp [shimActive, hg]
    have := runDefines_binds h hmem
    simp [isDefined, this]

/-- C6: for every macro table and every language version, applying the shim
to the result of the shim gives the result of applying it once (an application
that hits a conflicting definition fails both times). After a successful
application `ROSARIO_BOOLEANS_DEFINED` is defined, so a second application keeps
no directive and returns the table as it is; and in a table that had one
definition per name, the result has one definition per name, and exactly one of
each name the shim defines (`bool`, `true` and `false` among them when the
version test keeps lines 4-6). -/
theorem shim_idempotent (stdc : Option Nat) (t : MacroTable) :
    (shim stdc t >>= shim stdc) = shim stdc t ∧
    (∀ t', shim stdc t = .ok t' →
      isDefined "ROSARIO_BOOLEANS_DEFINED" t' = true ∧
      shimActive stdc t' = [] ∧
      shim stdc t' = .ok t' ∧
      ((t.map Prod.fst).Nodup →
        (t'.map Prod.fst).Nodup ∧
        ∀ d ∈ shimActive stdc t, (t'.map Prod.fst).count d.1 = 1)) := by
  have key : ∀ t', shim stdc t = .ok t' →
      isDefined "ROSARIO_BOOLEANS_DEFINED" t' = true ∧
      shimActive stdc t' = [] ∧
      shim stdc t' = .ok t' ∧
      ((t.map Prod.fst).Nodup →
        (t'.map Prod.fst).Nodup ∧
        ∀ d ∈ shimActive stdc t, (t'.map Prod.fst).count d.1 = 1) := by
    intro t' h
    have hg := shim_sets_guard h
    refine ⟨hg, shimActive_of_guard stdc hg, ?_, fun hn => ?_⟩
    · simp [shim, shimActive_of_guard stdc hg, runDefines]
    · have hn' := runDefines_nodup h hn
      exact ⟨hn', fun d hd =>
        List.count_eq_one_of_mem hn' (mem_names_of_lookup (runDefines_binds h hd))⟩
  refine ⟨?_, key⟩
  cases h : shim stdc t with
  | error e => rfl
  | ok t' =>
    show shim stdc t' = .ok t'
    exact (key t' h).2.2.1

/-- The shim applied to the empty macro table under C17: the result, a second
application of the shim to it, and its single entry per name. -/
theorem shim_idempotent_witness :
    shim (some 201710) [] = .ok
      [("__bool_true_false_are_defined", "1"), ("false", "0"), ("true", "1"),
        ("bool", "_Bool"), ("ROSARIO_BOOLEANS_DEFINED", "")] ∧
    shim (some 201710)
      [("__bool_true_false_are_defined", "1"), ("false", "0"), ("true", "1"),
        ("bool", "_Bool"), ("ROSARIO_BOOLEANS_DEFINED", "")] = .ok
      [("__bool_true_false_are_defined", "1"), ("false", "0"), ("true", "1"),
        ("bool", "_Bool"), ("ROSARIO_BOOLEANS_DEFINED", "")] ∧
    (List.map Prod.fst
      [("__bool_true_false_are_defined", "1"), ("false", "0"), ("true", "1"),
        ("bool", "_Bool"), ("ROSARIO_BOOLEANS_DEFINED", "")]).Nodup :=
  ⟨rfl, ((shim_idempotent (some 201710) []).2 _ rfl).2.2.1,
    (((shim_idempotent (some 201710) []).2 _ rfl).2.2.2 List.nodup_nil).1⟩

/-- The shim's directive lists in a unit where the guard is not defined, by
dialect: all five directives in a dialect without native boolean, lines 2 and 9
only in a dialect with it. -/
theorem shimActive_dialect (d : Dialect) {t : MacroTable}
    (hguard : isDefined "ROSARIO_BOOLEANS_DEFINED" t = false) :
    (d.hasNativeBool = false ∧ shimActive d.stdcVersion t =
      [("ROSARIO_BOOLEANS_DEFINED", ""), ("bool", "_Bool"), ("true", "1"), ("false", "0"),
        ("__bool_true_false_are_defined", "1")]) ∨
    (d.hasNativeBool = true ∧ shimActive d.stdcVersion t =
      [("ROSARIO_BOOLEANS_DEFINED", ""), ("__bool_true_false_are_defined", "1")]) := by
  cases d <;>
    simp [shimActive, hguard, stdcValue, Dialect.stdcVersion, Dialect.hasNativeBool]

/-- C7, the claim as stated fails on three units in which
`ROSARIO_BOOLEANS_DEFINED` is not defined. In C23 a unit that already defines
`true` as 0 and `false` as 1 keeps those after the shim. In C90 the shim defines
`bool` as `_Bool`, which C90 does not have. In C17 a unit that defines `_Bool`
as `int` gets a `bool` that is not the boolean type. In none of the three is a
boolean with `false = 0` and `true = 1` in scope after the shim. -/
theorem shim_boolean_not_in_scope :
    (isDefined "ROSARIO_BOOLEANS_DEFINED" [("true", "0"), ("false", "1")] = false ∧
      ∃ t', shim Dialect.C23.stdcVersion [("true", "0"), ("false", "1")] = .ok t' ∧
        trueValue .C23 t' = some 0 ∧ falseValue .C23 t' = some 1 ∧
        boolInScope .C23 t' = false) ∧
    (isDefined "ROSARIO_BOOLEANS_DEFINED" [] = false ∧
      ∃ t', shim Dialect.C90.stdcVersion [] = .ok t' ∧
        t'.lookup "bool" = some "_Bool" ∧ Dialect.C90.hasUnderscoreBool = false ∧
        boolInScope .C90 t' = false) ∧
    (isDefined "ROSARIO_BOOLEANS_DEFINED" [("_Bool", "int")] = false ∧
      ∃ t', shim Dialect.C17.stdcVersion [("_Bool", "int")] = .ok t' ∧
        t'.lookup "bool" = some "_Bool" ∧ t'.lookup "_Bool" = some "int" ∧
        boolInScope .C17 t' = false) := by
  refine ⟨⟨rfl, _, rfl, rfl, rfl, rfl⟩, ⟨rfl, _, rfl, rfl, rfl, rfl⟩,
    ⟨rfl, _, rfl, rfl, rfl, rfl⟩⟩

/-- C7, amended: in a unit where `ROSARIO_BOOLEANS_DEFINED` is not defined,
where the reserved name `_Bool` is not a macro and where, in a dialect with
native boolean, `bool`, `true` and `false` are not macros: the shim keeps its
definitions of `bool`, `true` and `false` exactly in the dialects without native
boolean; it succeeds whenever it meets no conflicting definition; and after it
has run the guard is defined, `__bool_true_false_are_defined` is 1, `true` is 1
and `false` is 0 in every dialect, and in every dialect from C99 on `bool` is
the two-valued type, so that a boolean with `false = 0` and `true = 1` is in
scope. Without native boolean `bool` is the macro `_Bool`, `true` the macro 1
and `false` the macro 0; with it the shim leaves the three names undefined. -/
theorem shim_puts_boolean_in_scope (d : Dialect) (t : MacroTable)
    (hguard : isDefined "ROSARIO_BOOLEANS_DEFINED" t = false)
    (hres : t.lookup "_Bool" = none)
    (hkw : d.hasNativeBool = true →
      t.lookup "bool" = none ∧ t.lookup "true" = none ∧ t.lookup "false" = none) :
    ((("bool", "_Bool") ∈ shimActive d.stdcVersion t ∧
        ("true", "1") ∈ shimActive d.stdcVersion t ∧
        ("false", "0") ∈ shimActive d.stdcVersion t) ↔ d.hasNativeBool = false) ∧
    (d.hasNativeBool = true →
      ∀ e ∈ shimActive d.stdcVersion t, e.1 ≠ "bool" ∧ e.1 ≠ "true" ∧ e.1 ≠ "false") ∧
    (conflictFree (shimActive d.stdcVersion t) t = true →
      ∃ t', shim d.stdcVersion t = .ok t') ∧
    (∀ t', shim d.stdcVersion t = .ok t' →
      isDefined "ROSARIO_BOOLEANS_DEFINED" t' = true ∧
      t'.lookup "__bool_true_false_are_defined" = some "1" ∧
      (d.hasNativeBool = false →
        t'.lookup "bool" = some "_Bool" ∧ t'.lookup "true" = some "1" ∧
        t'.lookup "false" = some "0") ∧
      (d.hasNativeBool = true →
        t'.lookup "bool" = none ∧ t'.lookup "true" = none ∧ t'.lookup "false" = none) ∧
      trueValue d t' = some 1 ∧
      falseValue d t' = some 0 ∧
      (d.hasUnderscoreBool = true → boolIsBooleanType d t' = true) ∧
      (d.hasUnderscoreBool = true → boolInScope d t' = true)) := by
  rcases shimActive_dialect d hguard with ⟨hn, ha⟩ | ⟨hn, ha⟩
  · refine ⟨?_, ?_, ?_, ?_⟩
    · simp [ha, hn]
    · intro h
      rw [hn] at h
      cases h
    · intro hc
      exact runDefines_ok_of_conflictFree (by rw [ha]; decide) hc
    · intro t' h
      unfold shim at h
      have hb := runDefines_binds h (d := ("bool", "_Bool")) (by simp [ha])
      have ht := runDefines_binds h (d := ("true", "1")) (by simp [ha])
      have hf := runDefines_binds h (d := ("false", "0")) (by simp [ha])
      have hu : t'.lookup "_Bool" = none := by
        rw [runDefines_other h (k := "_Bool") ?_, hres]
        intro e he
        rw [ha] at he
        simp only [List.mem_cons, List.mem_singleton, List.not_mem_nil, or_false] at he
        rcases he with rfl | rfl | rfl | rfl | rfl <;> decide
      have htv : trueValue d t' = some 1 := by
        simp only [trueValue, ht]
        rfl
      have hfv : falseValue d t' = some 0 := by
        simp only [falseValue, hf]
        rfl
      have hty : d.hasUnderscoreBool = true → boolIsBooleanType d t' = true := by
        intro h99
        simp [boolIsBooleanType, hb, hu, h99]
      refine ⟨shim_sets_guard h, ?_, fun _ => ⟨hb, ht, hf⟩, ?_, htv, hfv, hty, ?_⟩
      · exact runDefines_binds h (d := ("__bool_true_false_are_defined", "1")) (by simp [ha])
      · intro h'
        rw [hn] at h'
        cases h'
      · intro h99
        simp [boolInScope, hty h99, htv, hfv]
  · have hnot : ∀ e ∈ shimActive d.stdcVersion t,
        e.1 ≠ "bool" ∧ e.1 ≠ "true" ∧ e.1 ≠ "false" := by
      intro e he
      rw [ha] at he
      simp only [List.mem_cons, List.mem_singleton, List.not_mem_nil, or_false] at he
      rcases he with rfl | rfl <;> decide
    refine ⟨?_, fun _ => hnot, ?_, ?_⟩
    · simp [ha, hn]
    · intro hc
      exact runDefines_ok_of_conflictFree (by rw [ha]; decide) hc
    · intro t' h
      unfold shim at h
      obtain ⟨kb, kt, kf⟩ := hkw hn
      have hb : t'.lookup "bool" = none := by
        rw [runDefines_other h (fun e he => Ne.symm (hnot e he).1), kb]
      have ht : t'.lookup "true" = none := by
        rw [runDefines_other h (fun e he => Ne.symm (hnot e he).2.1), kt]
      have hf : t'.lookup "false" = none := by
        rw [runDefines_other h (fun e he => Ne.symm (hnot e he).2.2), kf]
      have htv : trueValue d t' = some 1 := by
        simp only [trueValue, ht, hn, if_true]
        rfl
      have hfv : falseValue d t' = some 0 := by
        simp only [falseValue, hf, hn, if_true]
        rfl
      have hty : boolIsBooleanType d t' = true := by
        simp only [boolIsBooleanType, hb, hn]
      refine ⟨shim_sets_guard h, ?_, ?_, fun _ => ⟨hb, ht, hf⟩, htv, hfv, fun _ => hty, ?_⟩
      · exact runDefines_binds h (d := ("__bool_true_false_are_defined", "1")) (by simp [ha])
      · intro h'
        rw [hn] at h'
        cases h'
      · intro _
        simp [boolInScope, hty, htv, hfv]

/-- The shim applied to the empty macro table, once under C17, a dialect
without native boolean, and once under C23, a dialect with it: the guard is not
defined before, and afterwards a boolean with `false = 0` and `true = 1` is in
scope, through the macros in C17 and through the keywords in C23. -/
theorem shim_puts_boolean_in_scope_witness :
    isDefined "ROSARIO_BOOLEANS_DEFINED" [] = false ∧
    (∃ t', shim Dialect.C17.stdcVersion [] = .ok t' ∧
      t'.lookup "bool" = some "_Bool" ∧ boolInScope .C17 t' = true) ∧
    (∃ t', shim Dialect.C23.stdcVersion [] = .ok t' ∧
      t'.lookup "bool" = none ∧ boolInScope .C23 t' = true) :=
  ⟨rfl,
    ((shim_puts_boolean_in_scope .C17 [] rfl rfl (by decide)).2.2.1 rfl).elim fun t' h =>
      ⟨t', h,
        (((shim_puts_boolean_in_scope .C17 [] rfl rfl (by decide)).2.2.2 t' h).2.2.1 rfl).1,
        ((shim_puts_boolean_in_scope .C17 [] rfl rfl (by decide)).2.2.2 t' h).2.2.2.2.2.2.2
          rfl⟩,
    ((shim_puts_boolean_in_scope .C23 [] rfl rfl (by decide)).2.2.1 rfl).elim fun t' h =>
      ⟨t', h,
        (((shim_puts_boolean_in_scope .C23 [] rfl rfl (by decide)).2.2.2 t' h).2.2.2.1 rfl).1,
        ((shim_puts_boolean_in_scope .C23 [] rfl rfl (by decide)).2.2.2 t' h).2.2.2.2.2.2.2
          rfl⟩⟩

/-! ## Brace initialisers -/

/-- The value `New_c_main_Option_Int32_Some v0` is the one the brace
initialiser of line 62 builds. -/
theorem some_is_its_initialiser (v0 : Int) :
    braceInit (New_c_main_Option_Int32_Some_init v0) = New_c_main_Option_Int32_Some v0 :=
  rfl

/-- C11: the value `New_c_main_Option_Int32_None` returns is the one the brace
initialiser of line 58 builds: its tag is false, that is 0, and the payload
member `Some_0`, which the initialiser does not name, is zero-initialised to 0.
The value is the struct with `kind` 0 and `Some_0` 0, and two results of the
call agree member by member. -/
theorem none_fully_determined :
    braceInit New_c_main_Option_Int32_None_init = New_c_main_Option_Int32_None ∧
    New_c_main_Option_Int32_None.kind = false ∧
    tagValue New_c_main_Option_Int32_None.kind = 0 ∧
    New_c_main_Option_Int32_None.Some_0 = 0 ∧
    (braceInit []).Some_0 = 0 ∧
    New_c_main_Option_Int32_None = { kind := toCBool 0, Some_0 := 0 } ∧
    New_c_main_Option_Int32_None = { kind := false, Some_0 := 0 } ∧
    (∀ r1 r2 : c_main_Option_Int32,
      r1 = braceInit New_c_main_Option_Int32_None_init →
      r2 = braceInit New_c_main_Option_Int32_None_init →
      r1.kind = r2.kind ∧ r1.Some_0 = r2.Some_0 ∧ r1 = r2) := by
  refine ⟨rfl, rfl, rfl, rfl, rfl, rfl, rfl, ?_⟩
  intro r1 r2 h1 h2
  subst h1
  subst h2
  exact ⟨rfl, rfl, rfl⟩

/-- Two results of the initialiser of line 58 compared: both have tag false
and payload member 0. -/
theorem none_fully_determined_witness :
    (braceInit [Designator.kind C_MAIN_OPTION_INT32_NONE]).kind =
        (braceInit New_c_main_Option_Int32_None_init).kind ∧
    (braceInit [Designator.kind C_MAIN_OPTION_INT32_NONE]).Some_0 =
        (braceInit New_c_main_Option_Int32_None_init).Some_0 ∧
    braceInit [Designator.kind C_MAIN_OPTION_INT32_NONE] =
        braceInit New_c_main_Option_Int32_None_init :=
  none_fully_determined.2.2.2.2.2.2.2 _ _ rfl rfl

/-! ## The program -/

/-- On a target whose `long` has at least the 32 bits the C standard requires,
every integer of the 32-bit two's complement range is a value of
`core_basic_types_Int32`. -/
theorem holdsOf_int32_of_long32 {m : DataModel} (hlong : 32 ≤ m.longBits) {x : Int}
    (hlo : -(2 : Int) ^ 31 ≤ x) (hhi : x ≤ (2 : Int) ^ 31 - 1) :
    holdsOf m .core_basic_types_Int32 x = true := by
  have ht : typeOf .core_basic_types_Int32 = some .signedLong := rfl
  have hp : (2 : Int) ^ 31 ≤ (2 : Int) ^ (m.longBits - 1) :=
    pow_le_pow_right₀ (by norm_num) (by omega)
  simp only [holdsOf, ht, CType.holds, CType.minVal, CType.maxVal, CType.isSigned, CType.bits,
    if_true, Bool.and_eq_true, decide_eq_true_eq]
  generalize (2 : Int) ^ (m.longBits - 1) = P at hp
  norm_num at hlo hhi hp
  constructor <;> omega

/-- Converting a value a typedef'd type can represent to that type leaves it
unchanged. -/
theorem convertTo_of_holdsOf {m : DataModel} {n : TypedefName} {x : Int}
    (h : holdsOf m n x = true) : convertTo m n x = some x := by
  unfold holdsOf at h
  unfold convertTo
  cases ht : typeOf n with
  | none =>
    rw [ht] at h
    cases h
  | some t =>
    rw [ht] at h
    have hx : t.holds m x = true := h
    simp [CType.convert, hx]

/-- C12: on every target whose `long` has at least the 32 bits the C standard
requires, and whatever standard output holds before: the addition of line 69
gives 4 without overflow; `c_main_Main` binds `a` and `b` to 2, `c` to 4 and
`enum_test` to `New_c_main_Option_Int32_Some 36`, and appends exactly the text
`4` and a newline to standard output; `main` does the same and returns 0. -/
theorem program_prints_four (m : DataModel) (hlong : 32 ≤ m.longBits) (out : String) :
    holdsOf m .core_basic_types_Int32 (2 + 2) = true ∧
    addIn m .core_basic_types_Int32 2 2 = some 4 ∧
    c_main_Main_enum_test = New_c_main_Option_Int32_Some 36 ∧
    c_main_Main m out =
      some ({ a := 2, b := 2, c := 4, enum_test := c_main_Main_enum_test }, out ++ "4\n") ∧
    main m out = some (out ++ "4\n", 0) := by
  have h2 : convertTo m .core_basic_types_Int32 2 = some 2 :=
    convertTo_of_holdsOf (holdsOf_int32_of_long32 hlong (by norm_num) (by norm_num))
  have h36 : convertTo m .core_basic_types_Int32 36 = some 36 :=
    convertTo_of_holdsOf (holdsOf_int32_of_long32 hlong (by norm_num) (by norm_num))
  have h4 : holdsOf m .core_basic_types_Int32 (2 + 2) = true :=
    holdsOf_int32_of_long32 hlong (by norm_num) (by norm_num)
  have hadd : addIn m .core_basic_types_Int32 2 2 = some 4 := by
    simp only [addIn, h4, if_true]
    rfl
  have hout : printf_li_newline out 4 = out ++ "4\n" := by
    show out ++ "4" ++ "\n" = out ++ "4\n"
    rw [String.append_assoc]
    rfl
  have hmain : c_main_Main m out =
      some ({ a := 2, b := 2, c := 4, enum_test := c_main_Main_enum_test },
        out ++ "4\n") := by
    simp only [c_main_Main, h2, h36, hadd, Option.bind_eq_bind, Option.some_bind, hout,
      Option.pure_def, c_main_Main_enum_test]
  refine ⟨h4, hadd, rfl, hmain, ?_⟩
  simp only [main, hmain, Option.bind_eq_bind, Option.some_bind, Option.pure_def]

/-- The program on an LP64 target with empty standard output: the widths meet
the requirement, the output is the text `4` and a newline, and `main` returns
0. -/
theorem program_prints_four_witness :
    32 ≤ LP64.longBits ∧ main LP64 "" = some ("4\n", 0) :=
  ⟨by decide, (program_prints_four LP64 (by decide) "").2.2.2.2⟩

end Rosario
